import Mathlib

/-!
Verification of the rally-tracker change-detection core.

This file gives a shallow embedding, in Lean 4, of the pure core of the
rally-tracker application (change extraction, change-id hashing, cursor
computation, persisted-state trimming and merging, scope keys, the retry
policy of the HTTP client, the classification differ and the notification
fan-out), together with theorems settling the frozen specification claims.

Conventions of the embedding:
* JS numbers are modelled as `Int` (all arithmetic in the embedded code is
  exact integer arithmetic below 2^53, except the 32-bit wraparound of the
  hash, which is modelled explicitly);
* `Date.parse` is modelled on the ISO-8601 UTC subset that the application
  produces and consumes (`YYYY-MM-DDTHH:MM:SS.sssZ`, the secondsZ variant and
  the date-only form), returning epoch milliseconds; `Date.toISOString` is
  modelled by `isoOfMs`;
* JS objects are modelled as ordered association lists, matching the
  insertion-order key enumeration of `Object.keys` and of `Map`;
* fallible or IO-performing code is modelled by explicit outcome values.
-/

set_option maxRecDepth 4000

namespace RallyTracker

/-- JS `Array.prototype.join(sep)` on a list of strings. -/
def jsJoin (sep : String) : List String → String
  | [] => ""
  | [x] => x
  | x :: xs => x ++ sep ++ jsJoin sep xs

/-- Lexicographic comparison of char lists by code point; models the default
JS string comparison used by `Array.prototype.sort()` on BMP strings. -/
def charListLe : List Char → List Char → Bool
  | [], _ => true
  | _ :: _, [] => false
  | a :: as, b :: bs =>
    if a.toNat < b.toNat then true
    else if b.toNat < a.toNat then false
    else charListLe as bs

/-- Default JS string ordering, as a boolean relation on `String`. -/
def jsStrLe (a b : String) : Bool := charListLe a.data b.data

/-- Wrap an integer to the signed 32-bit range; models the JS `| 0` coercion. -/
def toInt32 (n : Int) : Int := (n + 2 ^ 31) % 2 ^ 32 - 2 ^ 31

/-- The 32-bit accumulating loop of `simpleHash`:
`hash = (hash * 31 + value.charCodeAt(index)) | 0` over the characters. -/
def simpleHashInt (s : String) : Int :=
  s.data.foldl (fun h c => toInt32 (h * 31 + c.toNat)) 0

/-- Base-36 digit character, as produced by JS `Number.prototype.toString(36)`. -/
def digit36 (n : Nat) : Char :=
  if n < 10 then Char.ofNat (48 + n) else Char.ofNat (87 + n)

/-- Fuelled base-36 digit accumulation (the fuel is ample for any input). -/
def toBase36Core : Nat → Nat → List Char → List Char
  | 0, _, acc => acc
  | fuel + 1, n, acc =>
    if n < 36 then digit36 n :: acc
    else toBase36Core fuel (n / 36) (digit36 (n % 36) :: acc)

/-- JS `n.toString(36)` for a non-negative integer. -/
def toBase36 (n : Nat) : String := ⟨toBase36Core (n + 1) n []⟩

/-- `simpleHash` from the change fetcher:
a 31-multiplier 32-bit rolling hash rendered as base-36 of its absolute value. -/
def simpleHash (value : String) : String := toBase36 (simpleHashInt value).natAbs

/-- Leap-year predicate of the Gregorian calendar. -/
def isLeapYear (y : Int) : Bool :=
  (y % 4 == 0 && y % 100 != 0) || y % 400 == 0

/-- Number of days of month `m` (1-12) of year `y`. -/
def daysInMonth (y : Int) (m : Nat) : Nat :=
  if m = 2 then (if isLeapYear y then 29 else 28)
  else if m = 4 ∨ m = 6 ∨ m = 9 ∨ m = 11 then 30
  else 31

/-- Days since the Unix epoch of the civil date `(y, m, d)`
(standard days-from-civil algorithm). -/
def daysFromCivil (y : Int) (m d : Nat) : Int :=
  let yAdj : Int := if m ≤ 2 then y - 1 else y
  let era : Int := Int.fdiv yAdj 400
  let yoe : Nat := (yAdj - era * 400).toNat
  let mp : Nat := (m + 9) % 12
  let doy : Nat := (153 * mp + 2) / 5 + d - 1
  let doe : Nat := yoe * 365 + yoe / 4 - yoe / 100 + doy
  era * 146097 + (doe : Int) - 719468

/-- Civil date `(y, m, d)` of a count of days since the Unix epoch
(standard civil-from-days algorithm). -/
def civilFromDays (z0 : Int) : Int × Nat × Nat :=
  let z : Int := z0 + 719468
  let era : Int := Int.fdiv z 146097
  let doe : Nat := (z - era * 146097).toNat
  let yoe : Nat := (doe - doe / 1460 + doe / 36524 - doe / 146096) / 365
  let y : Int := (yoe : Int) + era * 400
  let doy : Nat := doe - (365 * yoe + yoe / 4 - yoe / 100)
  let mp : Nat := (5 * doy + 2) / 153
  let d : Nat := doy - (153 * mp + 2) / 5 + 1
  let m : Nat := if mp < 10 then mp + 3 else mp - 9
  (if m ≤ 2 then y + 1 else y, m, d)

/-- Left-pad a string with zeros to width `w`. -/
def zfill (w : Nat) (s : String) : String :=
  ⟨List.replicate (w - s.length) '0' ++ s.data⟩

/-- Year component rendering of `Date.prototype.toISOString`: four digits for
years 0-9999, expanded signed six-digit form outside that range. -/
def isoYearStr (y : Int) : String :=
  if y < 0 then "-" ++ zfill 6 (toString (-y).toNat)
  else if y ≤ 9999 then zfill 4 (toString y.toNat)
  else "+" ++ zfill 6 (toString y.toNat)

/-- JS `new Date(t).toISOString()` for epoch milliseconds `t`. -/
def isoOfMs (t : Int) : String :=
  let days : Int := Int.fdiv t 86400000
  let msOfDay : Nat := (t - days * 86400000).toNat
  let ymd := civilFromDays days
  let y := ymd.1
  let m := ymd.2.1
  let d := ymd.2.2
  let h : Nat := msOfDay / 3600000
  let mi : Nat := msOfDay / 60000 % 60
  let sec : Nat := msOfDay / 1000 % 60
  let ms : Nat := msOfDay % 1000
  isoYearStr y ++ "-" ++ zfill 2 (toString m) ++ "-" ++ zfill 2 (toString d) ++
    "T" ++ zfill 2 (toString h) ++ ":" ++ zfill 2 (toString mi) ++ ":" ++
    zfill 2 (toString sec) ++ "." ++ zfill 3 (toString ms) ++ "Z"

/-- Numeric value of a decimal digit character. -/
def digitVal? (c : Char) : Option Nat :=
  if '0' ≤ c ∧ c ≤ '9' then some (c.toNat - 48) else none

/-- Two-digit decimal parse. -/
def digits2 (a b : Char) : Option Nat := do
  let x ← digitVal? a
  let y ← digitVal? b
  pure (10 * x + y)

/-- Three-digit decimal parse. -/
def digits3 (a b c : Char) : Option Nat := do
  let x ← digits2 a b
  let y ← digitVal? c
  pure (10 * x + y)

/-- Four-digit decimal parse. -/
def digits4 (a b c d : Char) : Option Nat := do
  let x ← digits2 a b
  let y ← digits2 c d
  pure (100 * x + y)

/-- Validate the parsed date-time components and convert to epoch
milliseconds; mirrors the range checking JS `Date.parse` performs on
ISO-8601 inputs. -/
def msOfParts (y mo d h mi sec ms : Nat) : Option Int :=
  if 1 ≤ mo ∧ mo ≤ 12 ∧ 1 ≤ d ∧ d ≤ daysInMonth (y : Int) mo ∧
      h ≤ 23 ∧ mi ≤ 59 ∧ sec ≤ 59 then
    some (daysFromCivil (y : Int) mo d * 86400000 +
      ((h * 3600000 + mi * 60000 + sec * 1000 + ms : Nat) : Int))
  else none

/-- JS `Date.parse` restricted to the ISO-8601 UTC forms this application
produces and consumes: `YYYY-MM-DD`, `YYYY-MM-DDTHH:MM:SSZ` and
`YYYY-MM-DDTHH:MM:SS.sssZ`. Returns epoch milliseconds, `none` standing for
`NaN`. -/
def dateParse (s : String) : Option Int :=
  match s.data with
  | [y1, y2, y3, y4, '-', o1, o2, '-', d1, d2] => do
    let y ← digits4 y1 y2 y3 y4
    let mo ← digits2 o1 o2
    let d ← digits2 d1 d2
    msOfParts y mo d 0 0 0 0
  | [y1, y2, y3, y4, '-', o1, o2, '-', d1, d2, 'T',
      h1, h2, ':', i1, i2, ':', s1, s2, 'Z'] => do
    let y ← digits4 y1 y2 y3 y4
    let mo ← digits2 o1 o2
    let d ← digits2 d1 d2
    let h ← digits2 h1 h2
    let mi ← digits2 i1 i2
    let sec ← digits2 s1 s2
    msOfParts y mo d h mi sec 0
  | [y1, y2, y3, y4, '-', o1, o2, '-', d1, d2, 'T',
      h1, h2, ':', i1, i2, ':', s1, s2, '.', p1, p2, p3, 'Z'] => do
    let y ← digits4 y1 y2 y3 y4
    let mo ← digits2 o1 o2
    let d ← digits2 d1 d2
    let h ← digits2 h1 h2
    let mi ← digits2 i1 i2
    let sec ← digits2 s1 s2
    let ms ← digits3 p1 p2 p3
    msOfParts y mo d h mi sec ms
  | _ => none

/-! Data model, after `types.ts`. Optional fields become `Option`. -/

/-- `StoryChange` from `types.ts`: one normalized change-log entry. -/
structure StoryChange where
  changeId : String
  storyObjectId : Int
  formattedId : String
  name : String
  ownerName : Option String
  statusName : Option String
  ready : Option Bool
  scheduleState : Option String
  scheduleStateFrom : Option String
  scheduleStateTo : Option String
  projectName : String
  changedAt : String
  changedFields : List String
  changedBy : Option String
  url : String
deriving DecidableEq, Repr

/-- `TestingRequiredStoryRef` from `types.ts`. -/
structure TestingRequiredStoryRef where
  storyObjectId : Int
  formattedId : String
deriving DecidableEq, Repr

/-- `TrackerPersistedState` from `types.ts`. -/
structure TrackerPersistedState where
  scopeKey : String
  cursor : Option String
  seenChangeIds : List String
  lastNotificationAt : Option String
  history : List StoryChange
  lastCheckedAt : Option String
  testingRequiredStories : List TestingRequiredStoryRef
deriving DecidableEq, Repr

/-- `DEFAULT_TRACKER_STATE` from `constants.ts`. -/
def DEFAULT_TRACKER_STATE : TrackerPersistedState :=
  { scopeKey := ""
    cursor := none
    seenChangeIds := []
    lastNotificationAt := none
    history := []
    lastCheckedAt := none
    testingRequiredStories := [] }

/-! `appState.ts`: trimming, merging, scope keys, fresh state. -/

/-- The 45-day retention window of `trimTrackerState`, in milliseconds. -/
def retentionMs : Int := 45 * 24 * 60 * 60 * 1000

/-- `trimTrackerState` from `appState.ts`. The wall clock read `Date.now()`
becomes the explicit parameter `now` (epoch milliseconds). -/
def trimTrackerState (now : Int) (state : TrackerPersistedState) :
    TrackerPersistedState :=
  { state with
    history := state.history.filter fun entry =>
      match dateParse entry.changedAt with
      | some ts => decide (now - ts ≤ retentionMs)
      | none => false
    seenChangeIds :=
      state.seenChangeIds.drop (state.seenChangeIds.length - 2000) }

/-- One `map.set(key, value)` step on a JS `Map` modelled as an ordered
association list: an existing key keeps its position and gets the new value,
a new key is appended. -/
def mapSet (m : List (String × StoryChange)) (k : String) (v : StoryChange) :
    List (String × StoryChange) :=
  if m.any (fun p => p.1 = k) then
    m.map fun p => if p.1 = k then (k, v) else p
  else m ++ [(k, v)]

/-- Insert a list of changes into the map keyed by change id, in order. -/
def mapSetAll (m : List (String × StoryChange)) (changes : List StoryChange) :
    List (String × StoryChange) :=
  changes.foldl (fun acc c => mapSet acc c.changeId c) m

/-- Boolean sort relation of the history comparator
`(a, b) => Date.parse(b.changedAt) - Date.parse(a.changedAt)`:
descending by parsed timestamp, with a comparator value of `NaN` treated as
`0` per the ECMAScript sort specification. -/
def histLe (a b : StoryChange) : Bool :=
  match dateParse a.changedAt, dateParse b.changedAt with
  | some pa, some pb => decide (pb ≤ pa)
  | _, _ => true

/-- JS stable `Array.prototype.sort` with the descending-by-`changedAt`
comparator, modelled by the stable `List.mergeSort`. -/
def sortByChangedAtDesc (l : List StoryChange) : List StoryChange :=
  l.mergeSort histLe

/-- `mergeHistory` from `appState.ts`: index both lists by change id
(last write wins) then re-sort descending by `changedAt`. -/
def mergeHistory (existing incoming : List StoryChange) : List StoryChange :=
  sortByChangedAtDesc ((mapSetAll (mapSetAll [] existing) incoming).map
    fun p => p.2)

/-- The scope-relevant part of a tracker configuration. -/
structure ScopeConfig where
  workspaceOid : String
  projectOids : List String
  iterationOid : String
deriving DecidableEq, Repr

/-- `createScopeKey` from `appState.ts`:
`workspaceOid|sortedProjectOids.join(",")|iterationOid`. -/
def createScopeKey (config : ScopeConfig) : String :=
  config.workspaceOid ++ "|" ++
    jsJoin "," (config.projectOids.mergeSort jsStrLe) ++ "|" ++
    config.iterationOid

/-- `createFreshTrackerState` from `appState.ts`; the JS
`iterationStartDate || null` falsiness test becomes an emptiness test. -/
def createFreshTrackerState (scopeKey iterationStartDate : String) :
    TrackerPersistedState :=
  { DEFAULT_TRACKER_STATE with
    scopeKey := scopeKey
    cursor := if iterationStartDate = "" then none else some iterationStartDate }

/-- The state-selection prologue of `pollTracker` in `main.ts`: take the
stored state if any, then discard it wholesale when its scope key differs
from the freshly derived one. -/
def pollResolveState (stored : Option TrackerPersistedState)
    (scopeKey iterationStartDate : String) : TrackerPersistedState :=
  let trackerState := stored.getD (createFreshTrackerState scopeKey iterationStartDate)
  if trackerState.scopeKey ≠ scopeKey then
    createFreshTrackerState scopeKey iterationStartDate
  else trackerState

/-! `changeFetcher.ts`: feed-record processing (the unnamed module that
defines `fetchStoryChanges`, `computeSnapshotSince`, `extractChangedFields`,
`extractPreviousValues` and `simpleHash`). -/

/-- JS values as far as the feed-record processing inspects them. Objects are
ordered association lists, matching `Object.keys` insertion order. Numbers are
restricted to the exact-integer range the application uses. -/
inductive JsValue where
  | vNull : JsValue
  | vBool : Bool → JsValue
  | vNum : Int → JsValue
  | vStr : String → JsValue
  | vArr : List JsValue → JsValue
  | vObj : List (String × JsValue) → JsValue

/-- A raw feed record (`Record<string, unknown>`), an ordered field list;
an absent field models `undefined`. -/
def Snapshot : Type := List (String × JsValue)

/-- Property lookup on a record; `none` models `undefined`. -/
def jsGet (snapshot : Snapshot) (key : String) : Option JsValue :=
  (snapshot.find? fun p => p.1 = key).map fun p => p.2

/-- `Number(x)` composed with the `Number.isFinite` guard, on the value
shapes the feed uses; `none` models a non-finite result. String coercion is
modelled on decimal integer strings only. -/
def finiteNumber : Option JsValue → Option Int
  | none => none
  | some JsValue.vNull => some 0
  | some (JsValue.vBool b) => some (if b then 1 else 0)
  | some (JsValue.vNum n) => some n
  | some (JsValue.vStr s) => s.toInt?
  | some (JsValue.vArr _) => none
  | some (JsValue.vObj _) => none

/-- `String(x ?? "")` on the value shapes `_ValidFrom` takes; objects and
arrays are rendered by a fixed placeholder, as the application never
stringifies them on this path. -/
def jsStringOrEmpty : Option JsValue → String
  | none => ""
  | some JsValue.vNull => ""
  | some (JsValue.vBool b) => if b then "true" else "false"
  | some (JsValue.vNum n) => toString n
  | some (JsValue.vStr s) => s
  | some (JsValue.vArr _) => ""
  | some (JsValue.vObj _) => "[object Object]"

/-- `extractPreviousValues` from the change fetcher: the `_PreviousValues`
field when it is a non-null non-array object, else an empty record. -/
def extractPreviousValues (snapshot : Snapshot) : List (String × JsValue) :=
  match jsGet snapshot "_PreviousValues" with
  | some (JsValue.vObj fields) => fields
  | _ => []

/-- JS `field.startsWith("_")`: whether the first character is an
underscore. -/
def startsWithUnderscore (s : String) : Bool :=
  match s.data with
  | [] => false
  | c :: _ => c = '_'

/-- `extractChangedFields` from the change fetcher: the keys of the
previous-values record whose name does not start with an underscore, in
record order. -/
def extractChangedFields (snapshot : Snapshot) : List String :=
  ((extractPreviousValues snapshot).map fun p => p.1).filter
    fun field => ¬ startsWithUnderscore field

/-- The identity-relevant projection of the `StoryChange` built per feed
record by `fetchStoryChanges`. The display-field resolution (formatted id,
name, owner, schedule-state and project fall-back chains) is omitted: it
reads only auxiliary lookups and never feeds back into the change id, the
changed-field list or the skip conditions. -/
structure ChangeCore where
  changeId : String
  storyObjectId : Int
  changedAt : String
  changedFields : List String
deriving DecidableEq, Repr

/-- The per-record body of the extraction loop of `fetchStoryChanges`:
skip when `ObjectID` is not a finite number, when `_ValidFrom` is empty,
when the changed-field list is empty, or when the change id was already
seen; otherwise produce the change with
`changeId = simpleHash (storyObjectId:changedAt:changedFields.join(","))`. -/
def processSnapshot (seenIds : List String) (snapshot : Snapshot) :
    Option ChangeCore :=
  match finiteNumber (jsGet snapshot "ObjectID") with
  | none => none
  | some storyObjectId =>
    let changedAt := jsStringOrEmpty (jsGet snapshot "_ValidFrom")
    if changedAt = "" then none
    else
      let changedFields := extractChangedFields snapshot
      if changedFields = [] then none
      else
        let keyBase := toString storyObjectId ++ ":" ++ changedAt ++ ":" ++
          jsJoin "," changedFields
        let changeId := simpleHash keyBase
        if seenIds.contains changeId then none
        else some ⟨changeId, storyObjectId, changedAt, changedFields⟩

/-- `SNAPSHOT_OVERLAP_MS` from the change fetcher: 15 minutes. -/
def SNAPSHOT_OVERLAP_MS : Int := 15 * 60 * 1000

/-- `computeSnapshotSince` from the change fetcher: cursor minus the overlap
window, clamped to the iteration start when that parses; an unparseable
cursor is returned unchanged. -/
def computeSnapshotSince (cursor iterationStartDate : String) : String :=
  match dateParse cursor with
  | none => cursor
  | some cursorMs =>
    let sinceMs := cursorMs - SNAPSHOT_OVERLAP_MS
    match dateParse iterationStartDate with
    | some iterationStartMs => isoOfMs (max sinceMs iterationStartMs)
    | none => isoOfMs sinceMs

/-- The fields of a feed record that the Lookback `find` clause of
`fetchSnapshots` constrains. -/
structure SnapshotMeta where
  typeHierarchy : String
  iteration : Int
  validFrom : String
deriving DecidableEq, Repr

/-- Denotation of the `find` clause `fetchSnapshots` sends:
`{_TypeHierarchy: "HierarchicalRequirement", Iteration: {$in: oids},
_ValidFrom: {$gte: sinceIso}}`; `$gte` compares ISO strings, an inclusive
lower bound (modelled by the code-point order `jsStrLe`, which agrees with
chronological order on same-format ISO UTC strings). -/
def snapshotFindMatches (iterationOids : List Int) (sinceIso : String)
    (record : SnapshotMeta) : Prop :=
  record.typeHierarchy = "HierarchicalRequirement" ∧
    record.iteration ∈ iterationOids ∧
    jsStrLe sinceIso record.validFrom = true

/-! `rallyClient.ts`: the retry and backoff policy of `RallyClient.request`. -/

/-- `MAX_RETRIES` from `rallyClient.ts`. -/
def MAX_RETRIES : Nat := 3

/-- `backoffMs` from `rallyClient.ts`: 500ms base, doubling per attempt,
capped at 4000ms. -/
def backoffMs (attempt : Nat) : Nat := min 4000 (500 * 2 ^ attempt)

/-- Outcome of one transport attempt: a transport-level failure (a rejected
`transportRequest`), or a response with a status code and a flag telling
whether the body is valid JSON. -/
inductive TransportOutcome where
  | netFailure : TransportOutcome
  | response : Nat → Bool → TransportOutcome
deriving DecidableEq, Repr

/-- Final outcome of `RallyClient.request` towards the caller.
`authError` models a raised `RallyAuthError`, `failed` any other raised
error, `ok` a parsed successful response. -/
inductive RequestOutcome where
  | authError : RequestOutcome
  | failed : RequestOutcome
  | ok : RequestOutcome
deriving DecidableEq, Repr

/-- `RallyClient.request` from `rallyClient.ts`, with the transport modelled
as a map from attempt index to outcome. Returns the final outcome and the
list of backoff delays slept, in order. Mirrors the source control flow: a
401/403 raises `RallyAuthError`, which the surrounding catch re-raises
without retrying; a 429/5xx retries while attempts remain; any other thrown
error (non-2xx status, invalid JSON, transport failure) is caught by the
catch block and retried while attempts remain. -/
def request (trace : Nat → TransportOutcome) (attempt : Nat) :
    RequestOutcome × List Nat :=
  match trace attempt with
  | TransportOutcome.netFailure =>
    if h : attempt < MAX_RETRIES then
      let r := request trace (attempt + 1)
      (r.1, backoffMs attempt :: r.2)
    else (RequestOutcome.failed, [])
  | TransportOutcome.response status jsonOk =>
    if status = 401 ∨ status = 403 then (RequestOutcome.authError, [])
    else if (status = 429 ∨ 500 ≤ status) ∧ attempt < MAX_RETRIES then
      let r := request trace (attempt + 1)
      (r.1, backoffMs attempt :: r.2)
    else if status < 200 ∨ 300 ≤ status then
      if attempt < MAX_RETRIES then
        let r := request trace (attempt + 1)
        (r.1, backoffMs attempt :: r.2)
      else (RequestOutcome.failed, [])
    else if jsonOk then (RequestOutcome.ok, [])
    else if attempt < MAX_RETRIES then
      let r := request trace (attempt + 1)
      (r.1, backoffMs attempt :: r.2)
    else (RequestOutcome.failed, [])
termination_by MAX_RETRIES + 1 - attempt
decreasing_by all_goals omega

/-- A transport outcome the policy classifies as retryable per the spec
wording: a transport-level failure, a 429, or a 5xx response. -/
def retryableOutcome : TransportOutcome → Prop
  | TransportOutcome.netFailure => True
  | TransportOutcome.response status _ => status = 429 ∨ 500 ≤ status

/-! `main.ts` and `notificationEngine.ts`: the classification differ and the
notification fan-out. -/

/-- The testing-required diff step of `pollTracker` in `main.ts`: the
notification collaborator is invoked (result `some`) exactly when the sizes
of the current and previous classification sets differ, with the added list
the current members absent from the previous set and the removed list the
previous members absent from the current set (membership by story id, via
the two id-keyed maps). -/
def testingRequiredDiff (current previous : List TestingRequiredStoryRef) :
    Option (List TestingRequiredStoryRef × List TestingRequiredStoryRef) :=
  if current.length ≠ previous.length then
    some
      (current.filter fun story =>
        ¬ previous.any fun p => p.storyObjectId = story.storyObjectId,
       previous.filter fun story =>
        ¬ current.any fun c => c.storyObjectId = story.storyObjectId)
  else none

/-- A desktop notification as assembled by
`NotificationEngine.notifyTestingRequiredChange`. -/
structure NotificationMsg where
  title : String
  body : String
  tag : String
deriving DecidableEq, Repr

/-- The per-story notification list built for added then removed stories. -/
def buildNotifications (addedStories removedStories : List TestingRequiredStoryRef) :
    List NotificationMsg :=
  (addedStories.map fun story =>
    { title := story.formattedId
      body := story.formattedId ++ " is ready for validation."
      tag := "testing-required-added-" ++ toString story.storyObjectId }) ++
  (removedStories.map fun story =>
    { title := story.formattedId
      body := story.formattedId ++ " is no longer ready for validation."
      tag := "testing-required-removed-" ++ toString story.storyObjectId })

/-- The summary notification dispatched when more than 5 stories changed:
it names the first 5 formatted ids only. -/
def summaryNotification (notifications : List NotificationMsg) : NotificationMsg :=
  { title := "Testing required updated"
    body := "Stories changed: " ++
      jsJoin ", " ((notifications.take 5).map fun n => n.title) ++ ", ..."
    tag := "testing-required-summary" }

/-- `NotificationEngine.notifyTestingRequiredChange` from
`notificationEngine.ts`, returning the list of notifications dispatched.
The permission check `ensurePermission` is modelled by the boolean
`canNotify`. -/
def notifyTestingRequiredChange (canNotify : Bool)
    (addedStories removedStories : List TestingRequiredStoryRef) :
    List NotificationMsg :=
  if addedStories = [] ∧ removedStories = [] then []
  else if ¬ canNotify then []
  else
    let notifications := buildNotifications addedStories removedStories
    if notifications = [] then []
    else if 5 < notifications.length then [summaryNotification notifications]
    else notifications

/-! Shared sample data for witnesses and counterexamples. -/

/-- A story change with the given id and timestamp and neutral display
fields. -/
def sampleChange (changeId changedAt : String) : StoryChange :=
  { changeId := changeId
    storyObjectId := 7
    formattedId := "US7"
    name := "Sample"
    ownerName := none
    statusName := none
    ready := none
    scheduleState := none
    scheduleStateFrom := none
    scheduleStateTo := none
    projectName := "P"
    changedAt := changedAt
    changedFields := ["Name"]
    changedBy := none
    url := "" }

/-- A feed record whose previous-values keys are `PlanEstimate` then
`Name`. -/
def snapPlanName : Snapshot :=
  [("ObjectID", JsValue.vNum 42),
   ("_ValidFrom", JsValue.vStr "2024-01-05T10:00:00.000Z"),
   ("_PreviousValues", JsValue.vObj
     [("PlanEstimate", JsValue.vNum 5), ("Name", JsValue.vStr "Old name")])]

/-- The same feed record with the previous-values keys in the opposite
order, `Name` then `PlanEstimate`. -/
def snapNamePlan : Snapshot :=
  [("ObjectID", JsValue.vNum 42),
   ("_ValidFrom", JsValue.vStr "2024-01-05T10:00:00.000Z"),
   ("_PreviousValues", JsValue.vObj
     [("Name", JsValue.vStr "Old name"), ("PlanEstimate", JsValue.vNum 5)])]

/-- A feed record whose previous-values record contains an
underscore-prefixed key next to a regular key. -/
def snapUnderscoreMixed : Snapshot :=
  [("ObjectID", JsValue.vNum 7),
   ("_ValidFrom", JsValue.vStr "2024-02-01T00:00:00.000Z"),
   ("_PreviousValues", JsValue.vObj
     [("_foo", JsValue.vNum 0), ("Name", JsValue.vStr "x")])]

/-- A feed record whose previous-values record contains only
underscore-prefixed keys. -/
def snapUnderscoreOnly : Snapshot :=
  [("ObjectID", JsValue.vNum 8),
   ("_ValidFrom", JsValue.vStr "2024-02-01T00:00:00.000Z"),
   ("_PreviousValues", JsValue.vObj [("_ref", JsValue.vStr "y")])]

/-- A history entry older than its successor, for the C4 counterexample. -/
def chOld : StoryChange := sampleChange "id-old" "2024-01-01T00:00:00.000Z"

/-- A history entry newer than its predecessor, for the C4 counterexample. -/
def chNew : StoryChange := sampleChange "id-new" "2024-01-02T00:00:00.000Z"

/-- A configuration whose workspace id contains the bar separator. -/
def cfgBarInWorkspace : ScopeConfig := ⟨"w|p", ["q"], "i"⟩

/-- A configuration whose single project id contains the bar separator. -/
def cfgBarInProject : ScopeConfig := ⟨"w", ["p|q"], "i"⟩

/-- A configuration listing the same project id twice. -/
def cfgDupProjects : ScopeConfig := ⟨"w", ["1", "1"], "i"⟩

/-- A configuration listing that project id once. -/
def cfgOneProject : ScopeConfig := ⟨"w", ["1"], "i"⟩

/-! Claim C3. -/

/-- Claim C3: when the persisted scope key differs from the freshly derived
one, `pollTracker` proceeds from a fresh state: the resolved state equals
`createFreshTrackerState` of the new scope key (independently of every field
of the old state), its scope key is the new one, its cursor is the sprint
start date, and history, seen ids, classification set and timestamps are
reset to the defaults. -/
theorem C3_scope_fencing (st : TrackerPersistedState)
    (scopeKey iterationStartDate : String)
    (hmismatch : st.scopeKey ≠ scopeKey) (hdate : iterationStartDate ≠ "") :
    pollResolveState (some st) scopeKey iterationStartDate =
        createFreshTrackerState scopeKey iterationStartDate ∧
      (createFreshTrackerState scopeKey iterationStartDate).scopeKey = scopeKey ∧
      (createFreshTrackerState scopeKey iterationStartDate).cursor =
        some iterationStartDate ∧
      (createFreshTrackerState scopeKey iterationStartDate).history = [] ∧
      (createFreshTrackerState scopeKey iterationStartDate).seenChangeIds = [] ∧
      (createFreshTrackerState scopeKey iterationStartDate).testingRequiredStories = [] ∧
      (createFreshTrackerState scopeKey iterationStartDate).lastNotificationAt = none ∧
      (createFreshTrackerState scopeKey iterationStartDate).lastCheckedAt = none := by
  refine ⟨?_, rfl, ?_, rfl, rfl, rfl, rfl, rfl⟩
  · simp only [pollResolveState, Option.getD_some, ne_eq, hmismatch,
      not_false_eq_true, if_true]
  · simp only [createFreshTrackerState, hdate, if_false, if_neg hdate]

/-- Witness for C3 at a concrete stale state and scope. -/
theorem C3_scope_fencing_witness :
    pollResolveState
        (some { DEFAULT_TRACKER_STATE with
                  scopeKey := "ws1|10|it1"
                  cursor := some "2023-12-01"
                  seenChangeIds := ["x"]
                  history := [sampleChange "x" "2023-12-01"] })
        "ws1|10,11|it2" "2024-01-01" =
      createFreshTrackerState "ws1|10,11|it2" "2024-01-01" ∧
    (createFreshTrackerState "ws1|10,11|it2" "2024-01-01").scopeKey = "ws1|10,11|it2" ∧
    (createFreshTrackerState "ws1|10,11|it2" "2024-01-01").cursor = some "2024-01-01" ∧
    (createFreshTrackerState "ws1|10,11|it2" "2024-01-01").history = [] ∧
    (createFreshTrackerState "ws1|10,11|it2" "2024-01-01").seenChangeIds = [] ∧
    (createFreshTrackerState "ws1|10,11|it2" "2024-01-01").testingRequiredStories = [] ∧
    (createFreshTrackerState "ws1|10,11|it2" "2024-01-01").lastNotificationAt = none ∧
    (createFreshTrackerState "ws1|10,11|it2" "2024-01-01").lastCheckedAt = none :=
  C3_scope_fencing _ _ _ (by decide) (by decide)

/-! Claim C5. -/

/-- Claim C5: after a trim, every surviving history entry has a parseable
`changedAt` within the 45-day retention window of `now`, and the seen-id
list is exactly its own most-recent-2000 suffix (all entries when it is
shorter than 2000). -/
theorem C5_trim_retention (state : TrackerPersistedState) (now : Int) :
    retentionMs = 45 * 24 * 60 * 60 * 1000 ∧
      (∀ entry ∈ (trimTrackerState now state).history,
        ∃ ts, dateParse entry.changedAt = some ts ∧ now - ts ≤ retentionMs) ∧
      (trimTrackerState now state).seenChangeIds =
        state.seenChangeIds.drop (state.seenChangeIds.length - 2000) ∧
      (trimTrackerState now state).seenChangeIds.length =
        min state.seenChangeIds.length 2000 ∧
      (trimTrackerState now state).seenChangeIds <:+ state.seenChangeIds ∧
      (state.seenChangeIds.length ≤ 2000 →
        (trimTrackerState now state).seenChangeIds = state.seenChangeIds) := by
  have hseen : (trimTrackerState now state).seenChangeIds =
      state.seenChangeIds.drop (state.seenChangeIds.length - 2000) := by
    simp only [trimTrackerState]
  refine ⟨rfl, ?_, hseen, ?_, ?_, ?_⟩
  · intro entry hmem
    have hpred := List.of_mem_filter hmem
    cases hts : dateParse entry.changedAt with
    | none => rw [hts] at hpred; exact absurd hpred (by simp)
    | some ts =>
      refine ⟨ts, rfl, ?_⟩
      rw [hts] at hpred
      exact of_decide_eq_true hpred
  · rw [hseen, List.length_drop]
    omega
  · rw [hseen]
    exact List.drop_suffix _ _
  · intro hle
    rw [hseen]
    have hzero : state.seenChangeIds.length - 2000 = 0 := by omega
    rw [hzero, List.drop_zero]

/-- Witness for C5 at a concrete state and clock. -/
theorem C5_trim_retention_witness :
    (∃ ts, dateParse (sampleChange "a" "2024-01-01T00:00:00.000Z").changedAt
        = some ts ∧ 1704070000000 - ts ≤ retentionMs) ∧
      (trimTrackerState 1704070000000
        { DEFAULT_TRACKER_STATE with
            history := [sampleChange "a" "2024-01-01T00:00:00.000Z"]
            seenChangeIds := ["a", "b"] }).seenChangeIds = ["a", "b"] :=
  ⟨(C5_trim_retention
      { DEFAULT_TRACKER_STATE with
          history := [sampleChange "a" "2024-01-01T00:00:00.000Z"]
          seenChangeIds := ["a", "b"] } 1704070000000).2.1
      (sampleChange "a" "2024-01-01T00:00:00.000Z") (by decide),
   (C5_trim_retention
      { DEFAULT_TRACKER_STATE with
          history := [sampleChange "a" "2024-01-01T00:00:00.000Z"]
          seenChangeIds := ["a", "b"] } 1704070000000).2.2.2.2.2 (by decide)⟩

/-! Claim C2. -/

/-- Reflexivity of the code-point comparison. -/
theorem charListLe_refl (l : List Char) : charListLe l l = true := by
  induction l with
  | nil => rfl
  | cons a as ih => simp [charListLe, ih]

/-- Claim C2: for a cursor whose timestamp parses, `computeSnapshotSince` is
the ISO rendering of `max(iterationStart, cursor - 15 minutes)` (just
`cursor - 15 minutes` when the iteration start date does not parse), and a
feed record whose effective-change time equals that bound satisfies the
`$gte` clause of the feed query, i.e. the lower bound is inclusive. -/
theorem C2_snapshot_since (cursor iterationStartDate : String) (c : Int)
    (hc : dateParse cursor = some c) :
    SNAPSHOT_OVERLAP_MS = 15 * 60 * 1000 ∧
      (∀ i, dateParse iterationStartDate = some i →
        computeSnapshotSince cursor iterationStartDate =
          isoOfMs (max i (c - SNAPSHOT_OVERLAP_MS))) ∧
      (dateParse iterationStartDate = none →
        computeSnapshotSince cursor iterationStartDate =
          isoOfMs (c - SNAPSHOT_OVERLAP_MS)) ∧
      (∀ (iterationOids : List Int) (record : SnapshotMeta),
        record.typeHierarchy = "HierarchicalRequirement" →
        record.iteration ∈ iterationOids →
        record.validFrom = computeSnapshotSince cursor iterationStartDate →
        snapshotFindMatches iterationOids
          (computeSnapshotSince cursor iterationStartDate) record) := by
  refine ⟨rfl, ?_, ?_, ?_⟩
  · intro i hi
    simp only [computeSnapshotSince, hc, hi]
    rw [max_comm]
  · intro hi
    simp only [computeSnapshotSince, hc, hi]
  · intro iterationOids record hType hIter hBound
    refine ⟨hType, hIter, ?_⟩
    rw [hBound]
    exact charListLe_refl _

/-- Witness for C2: a poll one hour into the sprint with a 15-minute overlap
window yields the bound `max(sprintStart, cursor - 15 minutes)`, and a
record exactly at the bound matches the feed query. -/
theorem C2_snapshot_since_witness :
    computeSnapshotSince "2024-01-01T01:00:00.000Z" "2024-01-01T00:00:00.000Z" =
        isoOfMs (max 1704067200000 (1704070800000 - SNAPSHOT_OVERLAP_MS)) ∧
      snapshotFindMatches [55]
        (computeSnapshotSince "2024-01-01T01:00:00.000Z" "2024-01-01T00:00:00.000Z")
        { typeHierarchy := "HierarchicalRequirement"
          iteration := 55
          validFrom :=
            computeSnapshotSince "2024-01-01T01:00:00.000Z" "2024-01-01T00:00:00.000Z" } :=
  ⟨(C2_snapshot_since "2024-01-01T01:00:00.000Z" "2024-01-01T00:00:00.000Z"
      1704070800000 (by decide)).2.1 1704067200000 (by decide),
   (C2_snapshot_since "2024-01-01T01:00:00.000Z" "2024-01-01T00:00:00.000Z"
      1704070800000 (by decide)).2.2.2 [55] _ rfl (by decide) rfl⟩

/-! Claim C10. -/

/-- Claim C10: with permission granted, a combined story count between 1 and
5 dispatches exactly one per-story notification per story (added then
removed), and a count above 5 dispatches exactly the single summary
notification naming only the first 5 formatted ids. -/
theorem C10_notification_fanout
    (addedStories removedStories : List TestingRequiredStoryRef)
    (hpos : 1 ≤ addedStories.length + removedStories.length) :
    (addedStories.length + removedStories.length ≤ 5 →
      notifyTestingRequiredChange true addedStories removedStories =
          buildNotifications addedStories removedStories ∧
        (notifyTestingRequiredChange true addedStories removedStories).length =
          addedStories.length + removedStories.length) ∧
      (5 < addedStories.length + removedStories.length →
        notifyTestingRequiredChange true addedStories removedStories =
          [summaryNotification (buildNotifications addedStories removedStories)] ∧
        (summaryNotification (buildNotifications addedStories removedStories)).body =
          "Stories changed: " ++
            jsJoin ", "
              (((buildNotifications addedStories removedStories).take 5).map
                fun n => n.title) ++ ", ...") := by
  have hlen : (buildNotifications addedStories removedStories).length =
      addedStories.length + removedStories.length := by
    simp [buildNotifications]
  have hne : ¬ (addedStories = [] ∧ removedStories = []) := by
    rintro ⟨ha, hr⟩
    rw [ha, hr] at hpos
    simp at hpos
  have hnil : ¬ buildNotifications addedStories removedStories = [] := by
    intro hb
    rw [hb] at hlen
    simp at hlen
    omega
  constructor
  · intro hle
    constructor
    · simp only [notifyTestingRequiredChange, if_neg hne, not_true_eq_false,
        if_false, if_neg hnil]
      rw [if_neg]
      rw [hlen]
      omega
    · simp only [notifyTestingRequiredChange, if_neg hne, not_true_eq_false,
        if_false, if_neg hnil]
      rw [if_neg, hlen]
      rw [hlen]
      omega
  · intro hgt
    refine ⟨?_, rfl⟩
    simp only [notifyTestingRequiredChange, if_neg hne, not_true_eq_false,
      if_false, if_neg hnil]
    rw [if_pos]
    rw [hlen]
    omega

/-- Witness for C10 at a 2-story change and a 6-story change. -/
theorem C10_notification_fanout_witness :
    (notifyTestingRequiredChange true
        [⟨1, "US1"⟩] [⟨2, "US2"⟩] =
        buildNotifications [⟨1, "US1"⟩] [⟨2, "US2"⟩] ∧
      (notifyTestingRequiredChange true [⟨1, "US1"⟩] [⟨2, "US2"⟩]).length = 2) ∧
      notifyTestingRequiredChange true
        [⟨1, "US1"⟩, ⟨2, "US2"⟩, ⟨3, "US3"⟩, ⟨4, "US4"⟩] [⟨5, "US5"⟩, ⟨6, "US6"⟩] =
        [summaryNotification (buildNotifications
          [⟨1, "US1"⟩, ⟨2, "US2"⟩, ⟨3, "US3"⟩, ⟨4, "US4"⟩] [⟨5, "US5"⟩, ⟨6, "US6"⟩])] :=
  ⟨(C10_notification_fanout [⟨1, "US1"⟩] [⟨2, "US2"⟩] (by decide)).1 (by decide),
   ((C10_notification_fanout
      [⟨1, "US1"⟩, ⟨2, "US2"⟩, ⟨3, "US3"⟩, ⟨4, "US4"⟩] [⟨5, "US5"⟩, ⟨6, "US6"⟩]
      (by decide)).2 (by decide)).1⟩

/-! Claim C7. -/

/-- For id-distinct lists, an id-membership inclusion bounds the length. -/
theorem ids_length_le (current previous : List TestingRequiredStoryRef)
    (hnodup : (current.map TestingRequiredStoryRef.storyObjectId).Nodup)
    (hsub : ∀ s ∈ current, ∃ p ∈ previous, p.storyObjectId = s.storyObjectId) :
    current.length ≤ previous.length := by
  have hsubset : current.map TestingRequiredStoryRef.storyObjectId ⊆
      previous.map TestingRequiredStoryRef.storyObjectId := by
    intro x hx
    obtain ⟨s, hs, rfl⟩ := List.mem_map.mp hx
    obtain ⟨p, hp, hps⟩ := hsub s hs
    exact List.mem_map.mpr ⟨p, hp, hps⟩
  have := (List.subperm_of_subset hnodup hsubset).length_le
  simpa using this

/-- Claim C7: the notification step of a poll fires at most once (it is the
single optional outcome of the differ), fires exactly when the sizes of the
current and previous classification sets differ, carries as added exactly
the current members whose story id is absent from the previous set and as
removed exactly the previous members whose story id is absent from the
current set, and (for id-distinct sets, as produced by the id-keyed story
union) never carries two empty lists. -/
theorem C7_notification_trigger
    (current previous : List TestingRequiredStoryRef)
    (hc : (current.map TestingRequiredStoryRef.storyObjectId).Nodup)
    (hp : (previous.map TestingRequiredStoryRef.storyObjectId).Nodup) :
    (testingRequiredDiff current previous = none ↔
        current.length = previous.length) ∧
      (∀ added removed,
        testingRequiredDiff current previous = some (added, removed) →
        added = current.filter
            (fun story => ¬ previous.any
              fun p => p.storyObjectId = story.storyObjectId) ∧
          removed = previous.filter
            (fun story => ¬ current.any
              fun c => c.storyObjectId = story.storyObjectId) ∧
          ¬ (added = [] ∧ removed = [])) := by
  constructor
  · constructor
    · intro hnone
      by_contra hne
      simp only [testingRequiredDiff, if_pos hne] at hnone
      exact Option.noConfusion hnone
    · intro heq
      simp only [testingRequiredDiff, heq]
      simp
  · intro added removed hsome
    by_cases hne : current.length ≠ previous.length
    · simp only [testingRequiredDiff, if_pos hne, Option.some_inj] at hsome
      obtain ⟨ha, hr⟩ := Prod.mk.injEq .. ▸ hsome
      refine ⟨ha.symm ▸ rfl, hr.symm ▸ rfl, ?_⟩
      rintro ⟨hae, hre⟩
      subst ha hr
      have hsub1 : ∀ s ∈ current, ∃ p ∈ previous, p.storyObjectId = s.storyObjectId := by
        intro s hs
        by_contra hno
        push_neg at hno
        have : s ∈ current.filter
            (fun story => ¬ previous.any
              fun p => p.storyObjectId = story.storyObjectId) := by
          rw [List.mem_filter]
          refine ⟨hs, ?_⟩
          simp only [List.any_eq_true, decide_eq_true_eq, not_exists]
          simpa using hno
        rw [hae] at this
        exact absurd this (List.not_mem_nil s)
      have hsub2 : ∀ s ∈ previous, ∃ p ∈ current, p.storyObjectId = s.storyObjectId := by
        intro s hs
        by_contra hno
        push_neg at hno
        have : s ∈ previous.filter
            (fun story => ¬ current.any
              fun c => c.storyObjectId = story.storyObjectId) := by
          rw [List.mem_filter]
          refine ⟨hs, ?_⟩
          simp only [List.any_eq_true, decide_eq_true_eq, not_exists]
          simpa using hno
        rw [hre] at this
        exact absurd this (List.not_mem_nil s)
      have h1 := ids_length_le current previous hc hsub1
      have h2 := ids_length_le previous current hp hsub2
      omega
    · simp only [testingRequiredDiff, if_neg hne] at hsome
      exact absurd hsome (by simp)

/-- Witness for C7: previous set of one story, current set of two, fires
with the new story added and nothing removed. -/
theorem C7_notification_trigger_witness :
    testingRequiredDiff [⟨1, "US1"⟩, ⟨2, "US2"⟩] [⟨1, "US1"⟩] =
        some ([⟨2, "US2"⟩], []) ∧
      ¬ (([⟨2, "US2"⟩] : List TestingRequiredStoryRef) = [] ∧
          ([] : List TestingRequiredStoryRef) = []) :=
  ⟨by decide,
   ((C7_notification_trigger [⟨1, "US1"⟩, ⟨2, "US2"⟩] [⟨1, "US1"⟩]
      (by decide) (by decide)).2 [⟨2, "US2"⟩] [] (by decide)).2.2⟩

/-! Claim C6. -/

/-- A retryable outcome with attempts remaining recurses with the backoff
delay of the current attempt. -/
theorem request_retry_step (trace : Nat → TransportOutcome) (attempt : Nat)
    (hr : retryableOutcome (trace attempt)) (hlt : attempt < MAX_RETRIES) :
    request trace attempt =
      ((request trace (attempt + 1)).1,
        backoffMs attempt :: (request trace (attempt + 1)).2) := by
  rw [request.eq_def]
  cases h : trace attempt with
  | netFailure => simp [hlt]
  | response status jsonOk =>
    rw [h] at hr
    have hnotauth : ¬ (status = 401 ∨ status = 403) := by
      rcases hr with h429 | h5xx
      · omega
      · omega
    dsimp only
    rw [if_neg hnotauth, if_pos ⟨hr, hlt⟩]

/-- A retryable outcome with no attempt left surfaces the error. -/
theorem request_retry_end (trace : Nat → TransportOutcome) (attempt : Nat)
    (hr : retryableOutcome (trace attempt)) (hge : ¬ attempt < MAX_RETRIES) :
    request trace attempt = (RequestOutcome.failed, []) := by
  rw [request.eq_def]
  cases h : trace attempt with
  | netFailure => simp [hge]
  | response status jsonOk =>
    rw [h] at hr
    have hnotauth : ¬ (status = 401 ∨ status = 403) := by
      rcases hr with h429 | h5xx
      · omega
      · omega
    have hnon2xx : status < 200 ∨ 300 ≤ status := by
      rcases hr with h429 | h5xx
      · omega
      · omega
    dsimp only
    rw [if_neg hnotauth, if_neg (by tauto), if_pos hnon2xx, if_neg hge]

/-- The backoff-delay list of any run has at most `MAX_RETRIES - attempt`
entries: no request is retried more often than the attempt budget allows. -/

theorem request_delays_le_aux (trace : Nat → TransportOutcome) :
    ∀ (fuel attempt : Nat), MAX_RETRIES - attempt ≤ fuel →
      (request trace attempt).2.length ≤ MAX_RETRIES - attempt := by
  intro fuel
  induction fuel with
  | zero =>
    intro attempt h0
    have hge : ¬ attempt < MAX_RETRIES := by
      simp only [MAX_RETRIES] at h0 ⊢
      omega
    rw [request.eq_def]
    cases htr : trace attempt with
    | netFailure => simp [hge]
    | response status jsonOk =>
      dsimp only
      split_ifs with h1 h2 h3 h4 <;>
        first
        | (exfalso; tauto)
        | simp
  | succ n ih =>
    intro attempt h0
    by_cases hlt : attempt < MAX_RETRIES
    · have hrec := ih (attempt + 1) (by simp only [MAX_RETRIES] at h0 ⊢; omega)
      rw [request.eq_def]
      cases htr : trace attempt with
      | netFailure =>
        simp only [hlt, dif_pos, List.length_cons]
        simp only [MAX_RETRIES] at hrec hlt ⊢
        omega
      | response status jsonOk =>
        dsimp only
        split_ifs with h1 h2 h3 h4 <;>
          first
          | (simp only [List.length_cons]
             simp only [MAX_RETRIES] at hrec hlt ⊢
             omega)
          | simp
    · rw [request.eq_def]
      cases htr : trace attempt with
      | netFailure => simp [hlt]
      | response status jsonOk =>
        dsimp only
        split_ifs with h1 h2 h3 h4 <;>
          first
          | (exfalso; tauto)
          | simp

/-- Claim C6: a 401/403 response is never retried and yields the
authentication outcome, distinct from every other outcome; an always-failing
retryable condition (transport failure, 429 or 5xx) is retried exactly
`MAX_RETRIES = 3` additional times, sleeping the backoff delays of attempts
0, 1, 2 in order, before surfacing the error; the backoff starts at 500ms,
doubles per attempt and is capped at 4000ms. -/
theorem C6_retry_policy :
    (∀ (trace : Nat → TransportOutcome) (attempt status : Nat) (jsonOk : Bool),
      trace attempt = TransportOutcome.response status jsonOk →
      status = 401 ∨ status = 403 →
      request trace attempt = (RequestOutcome.authError, [])) ∧
      (RequestOutcome.authError ≠ RequestOutcome.failed ∧
        RequestOutcome.authError ≠ RequestOutcome.ok) ∧
      (∀ trace : Nat → TransportOutcome,
        (∀ n, retryableOutcome (trace n)) →
        request trace 0 =
          (RequestOutcome.failed, [backoffMs 0, backoffMs 1, backoffMs 2])) ∧
      MAX_RETRIES = 3 ∧
      backoffMs 0 = 500 ∧
      (∀ n, backoffMs (n + 1) = min 4000 (2 * backoffMs n)) ∧
      (∀ n, backoffMs n ≤ 4000) ∧
      (∀ trace : Nat → TransportOutcome,
        (request trace 0).2.length ≤ MAX_RETRIES) := by
  refine ⟨?_, ⟨by decide, by decide⟩, ?_, rfl, rfl, ?_, ?_,
    fun trace => request_delays_le_aux trace MAX_RETRIES 0 (by simp)⟩
  · intro trace attempt status jsonOk ht hs
    rw [request.eq_def, ht]
    dsimp only
    rw [if_pos hs]
  · intro trace h
    rw [request_retry_step trace 0 (h 0) (by decide),
      request_retry_step trace 1 (h 1) (by decide),
      request_retry_step trace 2 (h 2) (by decide),
      request_retry_end trace 3 (h 3) (by decide)]
  · intro n
    have hpow : (1 : Nat) ≤ 2 ^ n := Nat.one_le_two_pow
    have hsucc : 500 * 2 ^ (n + 1) = 2 * (500 * 2 ^ n) := by ring
    simp only [backoffMs, hsucc]
    omega
  · intro n
    simp only [backoffMs]
    omega

/-- Witness for C6: a 401 response resolves to the authentication error with
no retry, and a constant-503 transport is retried three times with the
500/1000/2000ms delays before failing. -/
theorem C6_retry_policy_witness :
    request (fun _ => TransportOutcome.response 401 true) 0 =
        (RequestOutcome.authError, []) ∧
      request (fun _ => TransportOutcome.response 503 false) 0 =
        (RequestOutcome.failed, [backoffMs 0, backoffMs 1, backoffMs 2]) :=
  ⟨C6_retry_policy.1 (fun _ => TransportOutcome.response 401 true) 0 401 true rfl
      (Or.inl rfl),
   C6_retry_policy.2.2.1 (fun _ => TransportOutcome.response 503 false)
      (fun _ => Or.inr (by decide))⟩

/-! Claims C1 and C8. -/

/-- Characterization of a produced change: its id is the hash of
`storyObjectId:changedAt:changedFields.join(",")` with the changed fields
taken in record order, and its changed-field list is the non-underscore
key list of the previous-values record, necessarily non-empty. -/
theorem processSnapshot_spec (seenIds : List String) (snapshot : Snapshot)
    (c : ChangeCore) (h : processSnapshot seenIds snapshot = some c) :
    c.changeId = simpleHash (toString c.storyObjectId ++ ":" ++ c.changedAt ++
        ":" ++ jsJoin "," c.changedFields) ∧
      c.changedFields = extractChangedFields snapshot ∧
      c.changedFields ≠ [] := by
  unfold processSnapshot at h
  cases hoid : finiteNumber (jsGet snapshot "ObjectID") with
  | none => rw [hoid] at h; exact Option.noConfusion h
  | some oid =>
    rw [hoid] at h
    dsimp only at h
    split_ifs at h with h1 h2 h3
    injection h with hc
    subst hc
    exact ⟨rfl, rfl, by assumption⟩

/-- A record with no non-underscore changed field produces no change. -/
theorem processSnapshot_empty_fields (seenIds : List String)
    (snapshot : Snapshot) (hempty : extractChangedFields snapshot = []) :
    processSnapshot seenIds snapshot = none := by
  unfold processSnapshot
  cases hoid : finiteNumber (jsGet snapshot "ObjectID") with
  | none => rfl
  | some oid =>
    dsimp only
    split_ifs <;> rfl

/-- Counterexample to claim C1: two feed records with the same story id, the
same effective-change timestamp and the same set of changed field names, but
with the previous-values keys enumerated in different orders, receive
different change ids; moreover the id is not the hash of the sorted
field-name form `42:changedAt:Name,PlanEstimate` stated by the spec. -/
theorem C1_change_id_order_counterexample :
    Option.map ChangeCore.storyObjectId (processSnapshot [] snapPlanName) =
        Option.map ChangeCore.storyObjectId (processSnapshot [] snapNamePlan) ∧
      Option.map ChangeCore.changedAt (processSnapshot [] snapPlanName) =
        Option.map ChangeCore.changedAt (processSnapshot [] snapNamePlan) ∧
      ((Option.map ChangeCore.changedFields
          (processSnapshot [] snapPlanName)).getD []).Perm
        ((Option.map ChangeCore.changedFields
          (processSnapshot [] snapNamePlan)).getD []) ∧
      (processSnapshot [] snapPlanName).isSome = true ∧
      (processSnapshot [] snapNamePlan).isSome = true ∧
      Option.map ChangeCore.changeId (processSnapshot [] snapPlanName) ≠
        Option.map ChangeCore.changeId (processSnapshot [] snapNamePlan) ∧
      Option.map ChangeCore.changeId (processSnapshot [] snapPlanName) ≠
        some (simpleHash "42:2024-01-05T10:00:00.000Z:Name,PlanEstimate") := by
  decide

/-- Claim C1 as amended: the change id is a deterministic hash of
`storyId:changedAt:changedFieldNames` with the changed field names joined in
the order they appear in the previous-values record (not sorted): any two
records, possibly observed in separate extraction calls (any seen sets),
agreeing on story id, timestamp and the ordered changed-field list receive
the same change id. -/
theorem C1_change_id_deterministic
    (seen1 seen2 : List String) (s1 s2 : Snapshot) (c1 c2 : ChangeCore)
    (h1 : processSnapshot seen1 s1 = some c1)
    (h2 : processSnapshot seen2 s2 = some c2)
    (hid : c1.storyObjectId = c2.storyObjectId)
    (hat : c1.changedAt = c2.changedAt)
    (hfields : c1.changedFields = c2.changedFields) :
    c1.changeId = c2.changeId := by
  rw [(processSnapshot_spec seen1 s1 c1 h1).1,
    (processSnapshot_spec seen2 s2 c2 h2).1, hid, hat, hfields]

/-- Witness for the amended C1: the same record processed in two extraction
calls with different seen sets yields changes with the same change id. -/
theorem C1_change_id_deterministic_witness :
    (⟨"vu27jl", 42, "2024-01-05T10:00:00.000Z",
        ["PlanEstimate", "Name"]⟩ : ChangeCore).changeId =
      (⟨"vu27jl", 42, "2024-01-05T10:00:00.000Z",
        ["PlanEstimate", "Name"]⟩ : ChangeCore).changeId :=
  C1_change_id_deterministic ["zzz"] ["yyy"] snapPlanName snapPlanName
    _ _ (by decide) (by decide) rfl rfl rfl

/-- Counterexample to claim C8: for a record whose previous-values record
holds the keys `_foo` and `Name`, the produced change has changed-field list
`["Name"]`, not the full key list `["_foo", "Name"]`; and a record whose
previous-values keys are all underscore-prefixed (a non-empty key set)
produces no change. -/
theorem C8_changed_fields_counterexample :
    Option.map ChangeCore.changedFields (processSnapshot [] snapUnderscoreMixed) =
        some ["Name"] ∧
      (extractPreviousValues snapUnderscoreMixed).map Prod.fst =
        ["_foo", "Name"] ∧
      (["Name"] : List String) ≠ ["_foo", "Name"] ∧
      (extractPreviousValues snapUnderscoreOnly).map Prod.fst ≠ [] ∧
      processSnapshot [] snapUnderscoreOnly = none := by
  decide

/-- Claim C8 as amended: the changed-field list of a produced change is
exactly the keys of the previous-values record that do not start with an
underscore, in record order; a record whose filtered changed-field list is
empty produces no change. -/
theorem C8_changed_fields (seenIds : List String) (snapshot : Snapshot) :
    (∀ c, processSnapshot seenIds snapshot = some c →
        c.changedFields =
          ((extractPreviousValues snapshot).map Prod.fst).filter
            fun field => ¬ startsWithUnderscore field) ∧
      (extractChangedFields snapshot = [] →
        processSnapshot seenIds snapshot = none) := by
  constructor
  · intro c hc
    exact (processSnapshot_spec seenIds snapshot c hc).2.1
  · intro hempty
    exact processSnapshot_empty_fields seenIds snapshot hempty

/-- Witness for the amended C8 at a concrete mixed record and a concrete
underscore-only record. -/
theorem C8_changed_fields_witness :
    (⟨"q6mrfl", 7, "2024-02-01T00:00:00.000Z", ["Name"]⟩ : ChangeCore).changedFields =
        ((extractPreviousValues snapUnderscoreMixed).map Prod.fst).filter
          (fun field => ¬ startsWithUnderscore field) ∧
      processSnapshot [] snapUnderscoreOnly = none :=
  ⟨(C8_changed_fields [] snapUnderscoreMixed).1
      ⟨"q6mrfl", 7, "2024-02-01T00:00:00.000Z", ["Name"]⟩ (by decide),
   (C8_changed_fields [] snapUnderscoreOnly).2 (by decide)⟩

/-! Claim C4. -/

unseal List.merge List.mergeSort in
/-- Counterexample to claim C4: for the ascending-ordered history
`[chOld, chNew]`, `mergeHistory(history, [])` re-sorts descending by
`changedAt` and returns `[chNew, chOld]`, not the input list — the identity
does not hold regardless of input order. -/
theorem C4_merge_counterexample :
    mergeHistory [chOld, chNew] [] ≠ [chOld, chNew] := by
  have heval : mergeHistory [chOld, chNew] [] = [chNew, chOld] := rfl
  rw [heval]
  decide

/-- Inserting changes with fresh, pairwise-distinct ids appends the
corresponding key-value pairs in order. -/
theorem mapSetAll_fresh (history : List StoryChange) :
    ∀ m : List (String × StoryChange),
      (∀ c ∈ history, ∀ p ∈ m, p.1 ≠ c.changeId) →
      (history.map StoryChange.changeId).Nodup →
      mapSetAll m history = m ++ history.map fun c => (c.changeId, c) := by
  induction history with
  | nil => intro m _ _; simp [mapSetAll]
  | cons c t ih =>
    intro m hfresh hnodup
    have hset : mapSet m c.changeId c = m ++ [(c.changeId, c)] := by
      rw [mapSet, if_neg]
      simp only [List.any_eq_true, decide_eq_true_eq, not_exists]
      intro p hp
      exact hfresh c (List.mem_cons_self c t) p hp.1 hp.2
    have hstep : mapSetAll m (c :: t) = mapSetAll (m ++ [(c.changeId, c)]) t := by
      simp only [mapSetAll, List.foldl_cons, hset]
    rw [hstep, ih (m ++ [(c.changeId, c)]) ?_ ?_]
    · simp
    · intro c' hc' p hp
      rcases List.mem_append.mp hp with hpm | hpnew
      · exact hfresh c' (List.mem_cons_of_mem c hc') p hpm
      · have hpc : p = (c.changeId, c) := by simpa using hpnew
        subst hpc
        simp only [List.map_cons, List.nodup_cons] at hnodup
        intro hcontra
        refine hnodup.1 ?_
        rw [show c.changeId = c'.changeId from hcontra]
        exact List.mem_map_of_mem StoryChange.changeId hc'
    · simp only [List.map_cons, List.nodup_cons] at hnodup
      exact hnodup.2

/-- Re-inserting changes whose exact key-value pairs are already present
leaves the map unchanged. -/
theorem mapSetAll_idem (history : List StoryChange) :
    ∀ m : List (String × StoryChange),
      (∀ c ∈ history, (c.changeId, c) ∈ m) →
      (∀ c ∈ history, ∀ p ∈ m, p.1 = c.changeId → p = (c.changeId, c)) →
      mapSetAll m history = m := by
  induction history with
  | nil => intro m _ _; rfl
  | cons c t ih =>
    intro m hpresent hunique
    have hset : mapSet m c.changeId c = m := by
      rw [mapSet, if_pos]
      · refine (List.map_congr_left ?_).trans (List.map_id m)
        intro p hp
        by_cases hkey : p.1 = c.changeId
        · rw [if_pos hkey]
          exact (hunique c (List.mem_cons_self c t) p hp hkey).symm
        · rw [if_neg hkey]
          rfl
      · simp only [List.any_eq_true, decide_eq_true_eq]
        exact ⟨(c.changeId, c), hpresent c (List.mem_cons_self c t), rfl⟩
    have hstep : mapSetAll m (c :: t) = mapSetAll m t := by
      simp only [mapSetAll, List.foldl_cons, hset]
    rw [hstep]
    exact ih m (fun c' hc' => hpresent c' (List.mem_cons_of_mem c hc'))
      (fun c' hc' => hunique c' (List.mem_cons_of_mem c hc'))

/-- Claim C4 as amended: for a history already deduplicated by change id and
sorted descending by `changedAt` (the invariant `mergeHistory` itself
establishes), merging the empty list and re-merging the history itself are
both the identity; for other orders `mergeHistory` re-sorts, as the
counterexample shows. -/
theorem C4_merge_idempotent (history : List StoryChange)
    (hids : (history.map StoryChange.changeId).Nodup)
    (hsorted : history.Pairwise fun a b => histLe a b = true) :
    mergeHistory history [] = history ∧
      mergeHistory history history = history := by
  have hfresh : mapSetAll [] history =
      history.map fun c => (c.changeId, c) :=
    mapSetAll_fresh history [] (by intro c _ p hp; exact absurd hp (List.not_mem_nil p))
      hids
  have hvalues : (history.map fun c => (c.changeId, c)).map Prod.snd = history := by
    rw [List.map_map]
    exact List.map_id history
  have hsort : sortByChangedAtDesc history = history :=
    List.mergeSort_of_sorted hsorted
  constructor
  · show sortByChangedAtDesc ((mapSetAll (mapSetAll [] history) []).map Prod.snd) =
      history
    have hnil : mapSetAll (mapSetAll [] history) [] = mapSetAll [] history := rfl
    rw [hnil, hfresh, hvalues, hsort]
  · show sortByChangedAtDesc ((mapSetAll (mapSetAll [] history) history).map Prod.snd) =
      history
    have hidem : mapSetAll (history.map fun c => (c.changeId, c)) history =
        history.map fun c => (c.changeId, c) := by
      refine mapSetAll_idem history _ ?_ ?_
      · intro c hc
        exact List.mem_map_of_mem _ hc
      · intro c hc p hp hkey
        obtain ⟨c', hc', rfl⟩ := List.mem_map.mp hp
        have hcc : c' = c := List.inj_on_of_nodup_map hids hc' hc hkey
        rw [hcc]
    rw [hfresh, hidem, hvalues, hsort]

/-- Witness for the amended C4 at a concrete descending two-entry history
with distinct ids. -/
theorem C4_merge_idempotent_witness :
    mergeHistory [chNew, chOld] [] = [chNew, chOld] ∧
      mergeHistory [chNew, chOld] [chNew, chOld] = [chNew, chOld] :=
  C4_merge_idempotent [chNew, chOld] (by decide) (by decide)

/-! Claim C9. -/

/-- The underlying character list determines the string. -/
theorem string_data_inj {s t : String} (h : s.data = t.data) : s = t := by
  cases s
  cases t
  exact congrArg String.mk h

/-- The character list of a join is the intercalation of the parts. -/
theorem jsJoin_data (sep : String) (parts : List String) :
    (jsJoin sep parts).data = List.intercalate sep.data (parts.map String.data) := by
  induction parts with
  | nil => simp [jsJoin, List.intercalate]
  | cons x xs ih =>
    cases xs with
    | nil => simp [jsJoin, List.intercalate, List.intersperse]
    | cons y ys =>
      simp only [jsJoin, String.data_append, ih, List.map_cons, List.intercalate,
        List.intersperse, List.flatten]
      simp [List.intercalate]

/-- A character absent from every part and from the separator is absent
from the join. -/
theorem jsJoin_char_not_mem (sep : String) (parts : List String) (ch : Char)
    (hparts : ∀ p ∈ parts, ch ∉ p.data) (hsep : ch ∉ sep.data) :
    ch ∉ (jsJoin sep parts).data := by
  induction parts with
  | nil => simp [jsJoin]
  | cons x xs ih =>
    cases xs with
    | nil =>
      simpa [jsJoin] using hparts x (List.mem_cons_self x [])
    | cons y ys =>
      simp only [jsJoin, String.data_append, List.mem_append]
      push_neg
      refine ⟨⟨hparts x (List.mem_cons_self x _), hsep⟩, ?_⟩
      exact ih (fun p hp => hparts p (List.mem_cons_of_mem x hp))

/-- A scope key decomposes as the bar-intercalation of workspace, joined
sorted projects and iteration. -/
theorem scope_key_data (config : ScopeConfig) :
    (createScopeKey config).data =
      List.intercalate ['|']
        [config.workspaceOid.data,
         (jsJoin "," (config.projectOids.mergeSort jsStrLe)).data,
         config.iterationOid.data] := by
  simp only [createScopeKey, String.data_append]
  simp [List.intercalate, List.intersperse]

/-- Sorting preserves nonemptiness. -/
theorem mergeSort_ne_nil {l : List String} (h : l ≠ []) :
    l.mergeSort jsStrLe ≠ [] := by
  intro hnil
  have hp := List.mergeSort_perm l jsStrLe
  rw [hnil] at hp
  exact h hp.symm.eq_nil

/-- Claim C9 as amended: for configurations whose workspace and iteration
ids contain no bar and whose project ids contain no bar and no comma (as
the numeric object ids of the service satisfy), with a nonempty project
list, scope keys are equal exactly when the workspace id, the sorted
project-id list and the iteration id coincide; equal sorted lists mean the
project ids agree as multisets. Without the separator-freeness proviso the
claimed equivalence fails, as the counterexample shows. -/
theorem C9_scope_key_iff (c1 c2 : ScopeConfig)
    (h1w : '|' ∉ c1.workspaceOid.data) (h1i : '|' ∉ c1.iterationOid.data)
    (h1p : ∀ p ∈ c1.projectOids, '|' ∉ p.data ∧ ',' ∉ p.data)
    (h1ne : c1.projectOids ≠ [])
    (h2w : '|' ∉ c2.workspaceOid.data) (h2i : '|' ∉ c2.iterationOid.data)
    (h2p : ∀ p ∈ c2.projectOids, '|' ∉ p.data ∧ ',' ∉ p.data)
    (h2ne : c2.projectOids ≠ []) :
    (createScopeKey c1 = createScopeKey c2 ↔
      c1.workspaceOid = c2.workspaceOid ∧
        c1.projectOids.mergeSort jsStrLe = c2.projectOids.mergeSort jsStrLe ∧
        c1.iterationOid = c2.iterationOid) ∧
      (c1.projectOids.mergeSort jsStrLe = c2.projectOids.mergeSort jsStrLe →
        c1.projectOids.Perm c2.projectOids) := by
  have hperm1 := List.mergeSort_perm c1.projectOids jsStrLe
  have hperm2 := List.mergeSort_perm c2.projectOids jsStrLe
  constructor
  · constructor
    · intro hkey
      have hd := congrArg String.data hkey
      rw [scope_key_data c1, scope_key_data c2] at hd
      have hmid1 : '|' ∉ (jsJoin "," (c1.projectOids.mergeSort jsStrLe)).data :=
        jsJoin_char_not_mem _ _ _
          (fun p hp => (h1p p (hperm1.mem_iff.mp hp)).1) (by decide)
      have hmid2 : '|' ∉ (jsJoin "," (c2.projectOids.mergeSort jsStrLe)).data :=
        jsJoin_char_not_mem _ _ _
          (fun p hp => (h2p p (hperm2.mem_iff.mp hp)).1) (by decide)
      have hsplit := congrArg (fun l => l.splitOn '|') hd
      simp only at hsplit
      rw [List.splitOn_intercalate _ '|'
          (by
            intro l hl
            simp only [List.mem_cons, List.not_mem_nil, or_false] at hl
            rcases hl with rfl | rfl | rfl
            · exact h1w
            · exact hmid1
            · exact h1i)
          (by simp),
        List.splitOn_intercalate _ '|'
          (by
            intro l hl
            simp only [List.mem_cons, List.not_mem_nil, or_false] at hl
            rcases hl with rfl | rfl | rfl
            · exact h2w
            · exact hmid2
            · exact h2i)
          (by simp)] at hsplit
      simp only [List.cons.injEq, and_true] at hsplit
      obtain ⟨hwd, hmidd, hid⟩ := hsplit
      refine ⟨string_data_inj hwd, ?_, string_data_inj hid⟩
      rw [jsJoin_data, jsJoin_data,
        show ("," : String).data = [','] from rfl] at hmidd
      have hsplit2 := congrArg (fun l => l.splitOn ',') hmidd
      simp only at hsplit2
      rw [List.splitOn_intercalate _ ','
          (by
            intro l hl
            obtain ⟨p, hp, rfl⟩ := List.mem_map.mp hl
            exact (h1p p (hperm1.mem_iff.mp hp)).2)
          (by
            simp only [ne_eq, List.map_eq_nil_iff]
            exact mergeSort_ne_nil h1ne),
        List.splitOn_intercalate _ ','
          (by
            intro l hl
            obtain ⟨p, hp, rfl⟩ := List.mem_map.mp hl
            exact (h2p p (hperm2.mem_iff.mp hp)).2)
          (by
            simp only [ne_eq, List.map_eq_nil_iff]
            exact mergeSort_ne_nil h2ne)] at hsplit2
      exact List.map_injective_iff.mpr (fun a b hab => string_data_inj hab) hsplit2
    · rintro ⟨hw, hs, hi⟩
      simp only [createScopeKey, hw, hs, hi]
  · intro hs
    exact hperm1.symm.trans (hs ▸ hperm2)



unseal List.merge List.mergeSort in
/-- Counterexample to claim C9: scope-key equality does not characterize
scope equality on arbitrary ids. Two configurations differing in workspace
and project set share the key `w|p|q|i` when a bar occurs inside an id, and
two configurations with the same project-id set (one listing a duplicate)
receive different keys. -/
theorem C9_scope_key_counterexample :
    createScopeKey cfgBarInWorkspace = createScopeKey cfgBarInProject ∧
      cfgBarInWorkspace.workspaceOid ≠ cfgBarInProject.workspaceOid ∧
      cfgBarInWorkspace.projectOids ≠ cfgBarInProject.projectOids ∧
      createScopeKey cfgDupProjects ≠ createScopeKey cfgOneProject ∧
      cfgDupProjects.projectOids.dedup = cfgOneProject.projectOids.dedup := by
  have h1 : createScopeKey cfgBarInWorkspace = "w|p|q|i" := rfl
  have h2 : createScopeKey cfgBarInProject = "w|p|q|i" := rfl
  have h3 : createScopeKey cfgDupProjects = "w|1,1|i" := rfl
  have h4 : createScopeKey cfgOneProject = "w|1|i" := rfl
  refine ⟨h1.trans h2.symm, by decide, by decide, ?_, by decide⟩
  rw [h3, h4]
  decide

unseal List.merge List.mergeSort in
/-- Witness for the amended C9: two clean configurations listing the same
projects in different orders receive the same scope key. -/
theorem C9_scope_key_iff_witness :
    createScopeKey ⟨"w", ["2", "1"], "i"⟩ = createScopeKey ⟨"w", ["1", "2"], "i"⟩ ∧
      (["2", "1"] : List String).Perm ["1", "2"] :=
  ⟨((C9_scope_key_iff ⟨"w", ["2", "1"], "i"⟩ ⟨"w", ["1", "2"], "i"⟩
        (by decide) (by decide) (by decide) (by decide)
        (by decide) (by decide) (by decide) (by decide)).1).mpr ⟨rfl, rfl, rfl⟩,
   (C9_scope_key_iff ⟨"w", ["2", "1"], "i"⟩ ⟨"w", ["1", "2"], "i"⟩
        (by decide) (by decide) (by decide) (by decide)
        (by decide) (by decide) (by decide) (by decide)).2 rfl⟩

end RallyTracker
